import Mathlib

/-!
# ERP Data Synchronization & Local Query Engine — verification

Shallow embedding of the structured engine in `src/index.js` (second server
variant): `fetchAllSalesOrders`, `summarizeERPData`, `mergeNewData`,
`filterOrders`, `formatResponse`, the durable-snapshot load at lines 312-316,
and the refresh timer at lines 546-549 / 569-572.

JavaScript runtime values are modelled as follows: numbers are `Option ℚ`
(`none` is `NaN`; infinities and double rounding are outside the modelled
subset), raw upstream fields are a small `JSValue` type, and the string /
number conversions used by the source (`Number(…)`, `parseFloat`,
`String.prototype.replace` with a one-character pattern, `toLowerCase`,
`includes`, `startsWith`) are given executable definitions faithful to the
ECMAScript behaviour on the decimal-literal subset (no exponents, no hex, no
`Infinity` literals, ASCII case mapping).
-/

namespace ERP

/-- A JS number: `some q` is a finite value, `none` is `NaN`.
Infinities and 64-bit float rounding are outside the modelled subset. -/
abbrev JSNum := Option ℚ

/-- The JS values that occur in raw upstream record fields. -/
inductive JSValue where
  | undefined
  | null
  | num (n : JSNum)
  | str (s : String)
deriving DecidableEq

/-- JS truthiness: `undefined`, `null`, `NaN`, `0` and `""` are falsy. -/
def JSValue.truthy : JSValue → Bool
  | .undefined => false
  | .null => false
  | .num none => false
  | .num (some q) => q != 0
  | .str s => s != ""

/-- JS `a || b`. -/
def jsOr (a b : JSValue) : JSValue := if a.truthy then a else b

/-- Addition on JS numbers: `NaN` propagates. -/
def jsAdd (a b : JSNum) : JSNum :=
  match a, b with
  | some x, some y => some (x + y)
  | _, _ => none

/-- Subtraction on JS numbers: `NaN` propagates. -/
def jsSub (a b : JSNum) : JSNum :=
  match a, b with
  | some x, some y => some (x - y)
  | _, _ => none

/-- The natural value of a run of decimal digits. -/
def digitsNat (cs : List Char) : ℕ :=
  cs.foldl (fun acc c => 10 * acc + (c.toNat - '0'.toNat)) 0

/-- The value of a run of decimal digits. -/
def digitsVal (cs : List Char) : ℚ := (digitsNat cs : ℚ)

/-- The value of a fractional digit run (`"25"` ↦ `0.25`). -/
def fracVal (cs : List Char) : ℚ :=
  digitsVal cs / (10 : ℚ) ^ cs.length

/-- Longest unsigned decimal-literal prefix: integer digits and an optional
fractional part, at least one digit overall; `none` when no digit leads. -/
def parseUnsignedDec (cs : List Char) : Option ℚ :=
  let intPart := cs.takeWhile Char.isDigit
  let rest := cs.dropWhile Char.isDigit
  let fracPart :=
    match rest with
    | '.' :: r => r.takeWhile Char.isDigit
    | _ => []
  if intPart.isEmpty && fracPart.isEmpty then none
  else some (digitsVal intPart + fracVal fracPart)

/-- Longest signed decimal-literal prefix. -/
def parseSignedDec (cs : List Char) : Option ℚ :=
  match cs with
  | '-' :: rest => (parseUnsignedDec rest).map (fun q => -q)
  | '+' :: rest => parseUnsignedDec rest
  | _ => parseUnsignedDec cs

/-- JS whitespace for the purposes of `parseFloat` / `Number` trimming. -/
def isJsWs (c : Char) : Bool := c = ' ' || c = '\t' || c = '\n' || c = '\r'

/-- JS `parseFloat`: skip leading whitespace, parse the longest
decimal-literal prefix, `NaN` when none exists. -/
def parseFloatJS (s : String) : JSNum :=
  parseSignedDec (s.data.dropWhile isJsWs)

/-- Full-string unsigned decimal literal (used by `Number(string)`):
the whole input must be consumed. -/
def fullSignedDec (cs : List Char) : Option ℚ :=
  let core :=
    match cs with
    | '-' :: rest => (rest, true)
    | '+' :: rest => (rest, false)
    | _ => (cs, false)
  let body := core.1
  let intPart := body.takeWhile Char.isDigit
  let rest := body.dropWhile Char.isDigit
  let fracRest :=
    match rest with
    | '.' :: r => (r.takeWhile Char.isDigit, r.dropWhile Char.isDigit)
    | _ => ([], rest)
  if (intPart.isEmpty && fracRest.1.isEmpty) || !fracRest.2.isEmpty then none
  else
    let v := digitsVal intPart + fracVal fracRest.1
    some (if core.2 then -v else v)

/-- JS `Number(string)`: trim whitespace, empty string is `0`, otherwise the
string must be exactly a decimal literal. -/
def jsNumberOfString (s : String) : JSNum :=
  let cs := ((s.data.dropWhile isJsWs).reverse.dropWhile isJsWs).reverse
  if cs.isEmpty then some 0 else fullSignedDec cs

/-- JS `Number(v)` on the modelled values. -/
def jsToNumber : JSValue → JSNum
  | .undefined => none
  | .null => some 0
  | .num n => n
  | .str s => jsNumberOfString s

/-- Remove the first occurrence of a character. -/
def removeFirst (c : Char) : List Char → List Char
  | [] => []
  | x :: xs => if x = c then xs else x :: removeFirst c xs

/-- JS `String.prototype.replace` with a one-character string pattern and the
empty replacement, as the source calls it (`.replace("%","")`,
`.replace(",","")`): only the **first** occurrence is removed. -/
def jsRemoveFirst (s : String) (c : Char) : String := ⟨removeFirst c s.data⟩

/-- `toString()` as applied by the source to the truthy value
`so.gpRate || "0"`. Identity on strings; an integral number prints its
decimal digits. Printing a non-integral double needs shortest-round-trip
float rendering, outside the modelled subset (no theorem depends on it). -/
def JSValue.toStr : JSValue → String
  | .str s => s
  | .num (some q) => toString q.num
  | .num none => "NaN"
  | .undefined => "undefined"
  | .null => "null"

/-- JS `toLowerCase()`, ASCII case mapping (the inputs this system
compares are ASCII). -/
def jsToLower (s : String) : String := ⟨s.data.map Char.toLower⟩

/-- JS `hay.includes(needle)`. -/
def jsIncludes (hay needle : String) : Bool :=
  hay.data.tails.any (fun t => needle.data.isPrefixOf t)

/-- `x || ""` on an optional string field (`none` is absent / `undefined`). -/
def orEmpty (v : Option String) : String := v.getD ""

/-- `x || "Unknown"` on an optional string field: absent or empty gives
`"Unknown"`. -/
def orUnknown (v : Option String) : String :=
  match v with
  | some s => if s = "" then "Unknown" else s
  | none => "Unknown"

/-- A raw upstream sales-order record, with exactly the fields the source
reads. Text fields that the source guards with `|| ""` / `|| "Unknown"` or
uses as object keys are `Option String` (`none` = absent); the two
numeric-or-string fields are `JSValue`. -/
structure RawSO where
  so_pk : String
  so_upk : String
  Name_Cust : Option String
  ContractDescription_TransH : Option String
  Memo_TransH : Option String
  Name_Dept : Option String
  Name_Empl : Option String
  TotalAmount_TransH : JSValue
  gpRate : JSValue
  Status_TransH : Option String
  DateCreated_TransH : String
deriving DecidableEq

/-- A record as stored in `allERPData`: the raw record spread (`...so`) plus
the fields `summarizeERPData` adds. The spread `gpRate` key is overwritten
by the parsed numeric value, kept here as the separate `gpRate` field. -/
structure SumSO where
  raw : RawSO
  division : String
  salesRep : String
  amount : JSNum
  gpRate : JSNum
  date : String
deriving DecidableEq

/-- The identity key the merge uses (`o.so_pk`, part of the spread). -/
def SumSO.so_pk (o : SumSO) : String := o.raw.so_pk

/-- `summarizeERPData` on one record (src/index.js lines 356-365). -/
def summarizeOne (so : RawSO) : SumSO :=
  { raw := so
    division := orUnknown so.Name_Dept
    salesRep := orUnknown so.Name_Empl
    amount := jsToNumber (jsOr so.TotalAmount_TransH (.num (some 0)))
    gpRate :=
      parseFloatJS
        (jsRemoveFirst (jsRemoveFirst (jsOr so.gpRate (.str "0")).toStr '%') ',')
    date := so.DateCreated_TransH }

/-- `summarizeERPData` (src/index.js lines 356-365). -/
def summarizeERPData (erpData : List RawSO) : List SumSO :=
  erpData.map summarizeOne

/-- The mutable snapshot state: the in-memory `allERPData` array plus a count
of the durable `fs.writeFileSync` calls performed so far. -/
structure Store where
  allERPData : List SumSO
  writes : Nat
deriving DecidableEq

/-- `mergeNewData` (src/index.js lines 368-376): filter the candidates whose
`so_pk` is already known, append the rest, and persist (one durable write)
iff at least one record was appended. -/
def mergeNewData (st : Store) (newData : List SumSO) : Store :=
  let existingSO := st.allERPData.map SumSO.so_pk
  let filteredNew := newData.filter (fun o => !(existingSO.contains o.so_pk))
  if filteredNew.length > 0 then
    { allERPData := st.allERPData ++ filteredNew, writes := st.writes + 1 }
  else st

/-- The `filteredNew` local of `mergeNewData`: the candidates whose
identity is not yet in the store. -/
def newRecords (st : Store) (newData : List SumSO) : List SumSO :=
  newData.filter (fun o => !((st.allERPData.map SumSO.so_pk).contains o.so_pk))

/-- The `filteredNew.length` count that `mergeNewData` logs: the number of
records a merge actually adds. -/
def mergeAddedCount (st : Store) (newData : List SumSO) : Nat :=
  (newRecords st newData).length

/-- The pagination loop of `fetchAllSalesOrders` (src/index.js lines
339-353). The upstream is modelled by the sequence of pages it serves: the
request at offset `500*i` receives `pages[i]`, and a request past the end of
the data receives the empty page (`res.data?.[0] || []`). Returns the
accumulated records together with the list of offsets actually requested. -/
def fetchLoop (limit : Nat) : List (List α) → Nat → List α × List Nat
  | [], offset => ([], [offset])
  | soList :: rest, offset =>
    if soList.length < limit then (soList, [offset])
    else
      let r := fetchLoop limit rest (offset + limit)
      (soList ++ r.1, offset :: r.2)

/-- `fetchAllSalesOrders` (src/index.js lines 339-353): page size 500,
starting offset 0. -/
def fetchAllSalesOrders (pages : List (List α)) : List α × List Nat :=
  fetchLoop 500 pages 0

/-- The `gpThreshold` object of a parsed query. -/
structure GpThreshold where
  operator : String
  value : ℚ
deriving DecidableEq

/-- The structured query descriptor `parseQuestionWithGPT` produces
(src/index.js lines 393-403); `none` models JSON `null` / absent. -/
structure ParsedQuery where
  intent : String
  date : Option String
  year : Option String
  gpThreshold : Option GpThreshold
  customer : Option String
  status : Option String
  topN : Option Nat
  fields : List String
deriving DecidableEq

/-- Comparisons of `o.gpRate` against a number: any comparison with `NaN`
is false, as in JS. -/
def jsGtQ (n : JSNum) (v : ℚ) : Bool :=
  match n with
  | some q => decide (v < q)
  | none => false

def jsLtQ (n : JSNum) (v : ℚ) : Bool :=
  match n with
  | some q => decide (q < v)
  | none => false

def jsGeQ (n : JSNum) (v : ℚ) : Bool :=
  match n with
  | some q => decide (v ≤ q)
  | none => false

def jsLeQ (n : JSNum) (v : ℚ) : Bool :=
  match n with
  | some q => decide (q ≤ v)
  | none => false

/-- JS `o.gpRate === value` for a number-valued left side. -/
def jsStrictEqQ (n : JSNum) (v : ℚ) : Bool :=
  match n with
  | some q => q == v
  | none => false

/-- The `switch (operator)` of the gross-profit filter (src/index.js lines
436-445); the `default` arm keeps the record. -/
def gpPass (operator : String) (value : ℚ) (o : SumSO) : Bool :=
  if operator = ">" then jsGtQ o.gpRate value
  else if operator = "<" then jsLtQ o.gpRate value
  else if operator = ">=" then jsGeQ o.gpRate value
  else if operator = "<=" then jsLeQ o.gpRate value
  else if operator = "=" then jsStrictEqQ o.gpRate value
  else true

/-- The customer-keyword predicate of `filterOrders`: case-insensitive
substring match over customer name, contract description, or memo. -/
def custPass (kw : String) (o : SumSO) : Bool :=
  jsIncludes (jsToLower (orEmpty o.raw.Name_Cust)) kw ||
  jsIncludes (jsToLower (orEmpty o.raw.ContractDescription_TransH)) kw ||
  jsIncludes (jsToLower (orEmpty o.raw.Memo_TransH)) kw

/-- `filterOrders` (src/index.js lines 422-452): the four optional filters
applied in sequence. A filter whose descriptor field is absent or falsy
(`null` or the empty string) is skipped. -/
def filterOrders (orders : List SumSO) (parsed : ParsedQuery) : List SumSO :=
  let f1 :=
    match parsed.customer with
    | some c => if c = "" then orders else orders.filter (custPass (jsToLower c))
    | none => orders
  let f2 :=
    match parsed.gpThreshold with
    | some t => f1.filter (gpPass t.operator t.value)
    | none => f1
  let f3 :=
    match parsed.date with
    | some d => if d = "" then f2 else f2.filter (fun o => o.raw.DateCreated_TransH == d)
    | none => f2
  let f4 :=
    match parsed.year with
    | some y =>
      if y = "" then f3
      else f3.filter (fun o => y.data.isPrefixOf o.raw.DateCreated_TransH.data)
    | none => f3
  f4

/-- The running value of `customerMap[k]` before an update:
`(customerMap[k] || 0)` — an absent key reads `undefined`, and a falsy
stored value (`0` or `NaN`) resets to `0`. -/
def accBase : Option JSNum → JSNum
  | none => some 0
  | some none => some 0
  | some (some q) => if q = 0 then some 0 else some q

/-- One `customerMap[k] = (customerMap[k] || 0) + o.amount` step on the
insertion-ordered entry list (a JS object with string keys preserves
insertion order, and `Object.entries` lists it in that order). -/
def updateAdd (m : List (String × JSNum)) (k : String) (amt : JSNum) :
    List (String × JSNum) :=
  match m with
  | [] => [(k, jsAdd (accBase none) amt)]
  | (k', v) :: rest =>
    if k' = k then (k', jsAdd (accBase (some v)) amt) :: rest
    else (k', v) :: updateAdd rest k amt

/-- The grouping loop of the `topCustomers` / `topDivision` / `topSales`
branches (src/index.js lines 491-513): sum `amount` per key, keys in
first-encounter order. -/
def accumEntries (key : SumSO → String) (orders : List SumSO) :
    List (String × JSNum) :=
  orders.foldl (fun m o => updateAdd m (key o) o.amount) []

/-- The `(a, b) => b[1] - a[1]` comparator, after the ECMAScript
`SortCompare` step that coerces a `NaN` comparator result to `+0`. -/
def entryCmp (a b : String × JSNum) : ℚ :=
  match jsSub b.2 a.2 with
  | some q => q
  | none => 0

/-- `a` may stay before `b` under the comparator (result `≤ 0`). -/
def entryLe (a b : String × JSNum) : Bool := decide (entryCmp a b ≤ 0)

/-- JS `Array.prototype.sort` with the descending-amount comparator,
modelled as a stable merge sort (ECMAScript sorts are stable and, for a
consistent comparator, sorted by it). -/
def sortEntriesDesc (m : List (String × JSNum)) : List (String × JSNum) :=
  m.mergeSort entryLe

/-- `parsed.topN || 1`: absent and `0` (falsy) both give the default 1. -/
def topNVal (parsed : ParsedQuery) : Nat :=
  match parsed.topN with
  | some n => if n = 0 then 1 else n
  | none => 1

/-- The ranked group list a top-N branch renders: group, sum, sort
descending, keep the first `n` (`.slice(0, topN)`). -/
def topEntries (key : SumSO → String) (orders : List SumSO) (n : Nat) :
    List (String × JSNum) :=
  (sortEntriesDesc (accumEntries key orders)).take n

/-- The object key `o.Name_Cust` of the `topCustomers` grouping: JS coerces
an `undefined` key to the string `"undefined"`. -/
def keyCust (o : SumSO) : String :=
  match o.raw.Name_Cust with
  | some s => s
  | none => "undefined"

/-- Rendering of a JS number inside a template literal. Faithful for
integral values and `NaN`; non-integral doubles need shortest-round-trip
printing, outside the modelled subset (no theorem inspects that case). -/
def jsNumToDisplay : JSNum → String
  | some q => toString q.num
  | none => "NaN"

/-- `formatPeso` (src/index.js lines 319-321): `Intl.NumberFormat` currency
rendering, abstracted to a placeholder; no theorem inspects the digits. -/
def formatPeso (n : JSNum) : String := "₱" ++ jsNumToDisplay n

/-- `highestGP.toFixed(2)`, abstracted like `formatPeso`. -/
def toFixed2 (n : JSNum) : String := jsNumToDisplay n

/-- `Math.max(...orders.map(o => o.gpRate))`: `NaN` propagates. The empty
case (`-Infinity`) is outside the modelled subset; the caller guards it. -/
def jsMaxAll : List JSNum → JSNum
  | [] => none
  | x :: xs =>
    xs.foldl
      (fun a b =>
        match a, b with
        | some x, some y => some (max x y)
        | _, _ => none)
      x

/-- The `mapFields` projection inside `formatResponse` (src/index.js lines
467-480). The dynamic `o[f] || "N/A"` access for a field name other than
`so_number` / `gp_rate` is outside the modelled subset and renders `"N/A"`;
no theorem depends on it. -/
def mapFields (parsed : ParsedQuery) (o : SumSO) : String :=
  if parsed.fields ≠ [] then
    String.intercalate " - "
      (parsed.fields.map (fun f =>
        if f = "so_number" then
          "so_number: " ++ (if o.raw.so_upk = "" then "N/A" else o.raw.so_upk)
        else if f = "gp_rate" then
          "gp_rate: " ++ jsNumToDisplay o.gpRate
        else f ++ ": N/A"))
  else
    "so_number: " ++ (if o.raw.so_upk = "" then "N/A" else o.raw.so_upk) ++
      " - gp_rate: " ++ jsNumToDisplay o.gpRate

/-- Render one ranked line of a top-N branch. -/
def rankLine (label : String) (i : Nat) (e : String × JSNum) : String :=
  "Top " ++ toString (i + 1) ++ " " ++ label ++ ": " ++ e.1 ++
    " - Total Amount: " ++ formatPeso e.2

/-- `formatResponse` (src/index.js lines 455-516). The `general` branch
delegates to the chat model, passed in as the opaque `llm` collaborator;
every other branch is embedded from the source. Intents without a branch
fall through to the fixed fallback string. -/
def formatResponse (llm : String → String) (orders : List SumSO)
    (parsed : ParsedQuery) (question : String) : String :=
  if parsed.intent = "general" then llm question
  else if orders.isEmpty then "There are 0 sales orders matching your query."
  else if parsed.intent = "count" then
    let totalAmount := orders.foldl (fun s o => jsAdd s o.amount) (some 0)
    let highestGP := jsMaxAll (orders.map SumSO.gpRate)
    "Total Sales Orders: " ++ toString orders.length ++
      "\nTotal Amount: " ++ formatPeso totalAmount ++
      "\nHighest GP Rate: " ++ toFixed2 highestGP ++ "%"
  else if parsed.intent = "list" then
    String.intercalate "\n" (orders.map (mapFields parsed))
  else if parsed.intent = "sample" then
    match orders with
    | o :: _ => mapFields parsed o
    | [] => ""
  else if parsed.intent = "topCustomers" then
    String.intercalate "\n"
      (((topEntries keyCust orders (topNVal parsed)).enum).map
        (fun p => rankLine "Customer" p.1 p.2))
  else if parsed.intent = "topDivision" then
    String.intercalate "\n"
      (((topEntries SumSO.division orders (topNVal parsed)).enum).map
        (fun p => rankLine "Division" p.1 p.2))
  else if parsed.intent = "topSales" then
    String.intercalate "\n"
      (((topEntries SumSO.salesRep orders (topNVal parsed)).enum).map
        (fun p => rankLine "Sales Personnel" p.1 p.2))
  else "Could not understand the question."

/-! ## Durable-snapshot load (src/index.js lines 312-316) -/

/-- A JSON value, for the durable `erpData.json` snapshot. -/
inductive Json where
  | null
  | bool (b : Bool)
  | num (q : ℚ)
  | str (s : String)
  | arr (xs : List Json)
  | obj (fields : List (String × Json))

/-- Skip JSON whitespace. -/
def skipWs (cs : List Char) : List Char :=
  cs.dropWhile (fun c => c = ' ' || c = '\t' || c = '\n' || c = '\r')

/-- JSON string body after the opening quote. Escapes are modelled for the
simple two-character forms; `\uXXXX` is outside the modelled subset. -/
def parseStringBody : List Char → Option (String × List Char)
  | [] => none
  | '"' :: rest => some ("", rest)
  | '\\' :: e :: rest =>
    (parseStringBody rest).map (fun p =>
      (⟨(if e = 'n' then '\n' else if e = 't' then '\t' else
          if e = 'r' then '\r' else e) :: p.1.data⟩, p.2))
  | c :: rest => (parseStringBody rest).map (fun p => (⟨c :: p.1.data⟩, p.2))
termination_by cs => cs.length

/-- JSON number: optional minus, integer digits, optional fraction.
Exponents are outside the modelled subset. -/
def parseJsonNum (cs : List Char) : Option (ℚ × List Char) :=
  let core :=
    match cs with
    | '-' :: rest => (rest, true)
    | _ => (cs, false)
  let body := core.1
  let intPart := body.takeWhile Char.isDigit
  let rest := body.dropWhile Char.isDigit
  let fracRest :=
    match rest with
    | '.' :: r => (r.takeWhile Char.isDigit, r.dropWhile Char.isDigit)
    | _ => ([], rest)
  if intPart.isEmpty then none
  else
    let v := digitsVal intPart + fracVal fracRest.1
    some ((if core.2 then -v else v), fracRest.2)

mutual

/-- Recursive-descent JSON parser, fuelled; `JSON.parse` supplies fuel
exceeding the input length, which any derivation needs less of. -/
def parseJsonF : Nat → List Char → Option (Json × List Char)
  | 0, _ => none
  | fuel + 1, cs =>
    match skipWs cs with
    | 'n' :: 'u' :: 'l' :: 'l' :: rest => some (.null, rest)
    | 't' :: 'r' :: 'u' :: 'e' :: rest => some (.bool true, rest)
    | 'f' :: 'a' :: 'l' :: 's' :: 'e' :: rest => some (.bool false, rest)
    | '"' :: rest => (parseStringBody rest).map (fun p => (.str p.1, p.2))
    | '[' :: rest =>
      (match skipWs rest with
       | ']' :: r2 => some (.arr [], r2)
       | r2 => (parseArrItems fuel r2).map (fun p => (.arr p.1, p.2)))
    | '{' :: rest =>
      (match skipWs rest with
       | '}' :: r2 => some (.obj [], r2)
       | r2 => (parseObjItems fuel r2).map (fun p => (.obj p.1, p.2)))
    | cs' => (parseJsonNum cs').map (fun p => (.num p.1, p.2))

/-- A nonempty comma-separated list of array elements, up to `]`. -/
def parseArrItems : Nat → List Char → Option (List Json × List Char)
  | 0, _ => none
  | fuel + 1, cs => do
    let (v, r) ← parseJsonF fuel cs
    match skipWs r with
    | ',' :: r2 =>
      let (vs, r3) ← parseArrItems fuel r2
      some (v :: vs, r3)
    | ']' :: r2 => some ([v], r2)
    | _ => none

/-- A nonempty comma-separated list of object members, up to `}`. -/
def parseObjItems : Nat → List Char → Option (List (String × Json) × List Char)
  | 0, _ => none
  | fuel + 1, cs => do
    match skipWs cs with
    | '"' :: r0 => do
      let (k, r1) ← parseStringBody r0
      match skipWs r1 with
      | ':' :: r2 => do
        let (v, r3) ← parseJsonF fuel r2
        match skipWs r3 with
        | ',' :: r4 =>
          let (kvs, r5) ← parseObjItems fuel r4
          some ((k, v) :: kvs, r5)
        | '}' :: r4 => some ([(k, v)], r4)
        | _ => none
      | _ => none
    | _ => none

end

/-- `JSON.parse`: the whole (whitespace-trimmed) input must be one JSON
value; `none` models the thrown `SyntaxError`. -/
def jsonParse (s : String) : Option Json :=
  match parseJsonF (s.data.length + 1) s.data with
  | some (v, rest) => if (skipWs rest).isEmpty then some v else none
  | none => none

/-- The state of the durable snapshot file at process start. -/
inductive FileState where
  | missing
  | unreadable
  | content (s : String)
deriving DecidableEq

/-- The top-level load (src/index.js lines 312-316): when the file is
missing, `allERPData` keeps its initial `[]`; otherwise the file is read and
`JSON.parse`d with **no** surrounding try/catch, so a read error or a parse
error escapes module top level — modelled as `Except.error`, fatal at
process start. -/
def loadERPData : FileState → Except String Json
  | .missing => .ok (.arr [])
  | .unreadable => .error "EACCES"
  | .content s =>
    match jsonParse s with
    | some v => .ok v
    | none => .error "SyntaxError"

/-! ## Refresh timer (src/index.js lines 546-549 and 569-572) -/

/-- Modelled event-loop timing of the refresh driver, one tick per second:
`app.listen` starts a `preloadERPData` run at time 0 and
`setInterval(..., 60_000)` starts another every 60 ticks, unconditionally —
the source keeps no in-flight flag and never skips a tick. -/
def refreshStarts (s : Nat) : Bool := s % 60 == 0

/-- The number of `preloadERPData` runs executing at tick `t`, when every
run takes `d` ticks: runs started at `s ≤ t` with `t < s + d` are still in
flight (an `async` run keeps executing across `await` points; nothing
cancels or skips it). -/
def activeRuns (d t : Nat) : Nat :=
  ((List.range (t + 1)).filter (fun s => refreshStarts s && t < s + d)).length

/-! ## Decomposed filter predicates (for the composition theorem) -/

/-- The customer filter as a single predicate (`true` when skipped). -/
def custTest : Option String → SumSO → Bool
  | some c, o => if c = "" then true else custPass (jsToLower c) o
  | none, _ => true

/-- The gross-profit filter as a single predicate (`true` when skipped). -/
def gpTest : Option GpThreshold → SumSO → Bool
  | some t, o => gpPass t.operator t.value o
  | none, _ => true

/-- The exact-date filter as a single predicate (`true` when skipped). -/
def dateTest : Option String → SumSO → Bool
  | some d, o => if d = "" then true else o.raw.DateCreated_TransH == d
  | none, _ => true

/-- The year-prefix filter as a single predicate (`true` when skipped). -/
def yearTest : Option String → SumSO → Bool
  | some y, o =>
    if y = "" then true else y.data.isPrefixOf o.raw.DateCreated_TransH.data
  | none, _ => true

/-- The conjunction of the four optional filters of `filterOrders`. -/
def matchesQuery (parsed : ParsedQuery) (o : SumSO) : Bool :=
  custTest parsed.customer o && gpTest parsed.gpThreshold o &&
    dateTest parsed.date o && yearTest parsed.year o

/-- The per-group amount total: the sum of `amount` (read as a rational)
over the records of one group. -/
def groupSum (key : SumSO → String) (orders : List SumSO) (k : String) : ℚ :=
  ((orders.filter (fun o => key o == k)).map (fun o => (o.amount).getD 0)).sum

/-! ## Concrete fixtures used by witnesses and counterexamples -/

/-- A baseline raw record; fixtures below override single fields. -/
def rawBase : RawSO :=
  { so_pk := "pk", so_upk := "SO-1", Name_Cust := some "Acme"
    ContractDescription_TransH := none, Memo_TransH := none
    Name_Dept := some "Print", Name_Empl := some "Jo"
    TotalAmount_TransH := .num (some 100), gpRate := .str "50"
    Status_TransH := some "BILLED", DateCreated_TransH := "2024-01-01" }

/-- A stored record with the given identity, customer, amount, gross-profit
rate and creation date. -/
def mkRec (pk cust : String) (amt gp : ℚ) (date : String) : SumSO :=
  { raw :=
      { rawBase with
          so_pk := pk
          Name_Cust := some cust
          DateCreated_TransH := date }
    division := "Print"
    salesRep := "Jo"
    amount := some amt
    gpRate := some gp
    date := date }

/-- The three records of the spec's filter-composition example. -/
def recsFilter : List SumSO :=
  [mkRec "1" "Acme" 100 60 "2024-01-01",
   mkRec "2" "Acme" 100 40 "2024-06-01",
   mkRec "3" "Beta" 100 70 "2024-01-01"]

/-- The descriptor of the spec's filter-composition example. -/
def descFilter : ParsedQuery :=
  { intent := "list", date := none, year := none
    gpThreshold := some { operator := ">", value := 50 }
    customer := some "acme", status := none, topN := none, fields := [] }

/-- A descriptor whose gross-profit operator is not one of the five
recognized comparison operators. -/
def descBadOp : ParsedQuery :=
  { descFilter with customer := none
                    gpThreshold := some { operator := "!=", value := 50 } }

/-- Records for the top-N example: summed amounts Acme=300, Beta=500,
Gamma=200. -/
def recsTop : List SumSO :=
  [mkRec "1" "Acme" 100 50 "2024-01-01",
   mkRec "2" "Beta" 500 50 "2024-01-02",
   mkRec "3" "Acme" 200 50 "2024-01-03",
   mkRec "4" "Gamma" 200 50 "2024-01-04"]

/-- A `max`-intent descriptor. -/
def descMax : ParsedQuery :=
  { intent := "max", date := none, year := none, gpThreshold := none
    customer := none, status := none, topN := none, fields := [] }

/-- An entry whose sum is known rational, as a `(name, ℚ)` pair. -/
def toQEntry (p : String × JSNum) : String × ℚ := (p.1, (p.2).getD 0)

/-- Embed a `(name, ℚ)` pair back into JS-number entries. -/
def ofQEntry (p : String × ℚ) : String × JSNum := (p.1, some p.2)

/-- The descending-amount comparator on rational entries. -/
def entryLeQ (a b : String × ℚ) : Bool := decide (b.2 ≤ a.2)

end ERP

namespace ERP

/-! ## C1 — idempotent merge -/

/-- `mergeNewData`, with its locals named: append the unseen candidates and
bump the write counter iff there are any. -/
theorem mergeNewData_eq (st : Store) (cand : List SumSO) :
    mergeNewData st cand =
      if 0 < (newRecords st cand).length then
        { allERPData := st.allERPData ++ newRecords st cand
          writes := st.writes + 1 }
      else st := rfl

/-- Every candidate's identity is known after the first merge. -/
theorem mem_ids_mergeNewData (st : Store) (cand : List SumSO) (o : SumSO)
    (ho : o ∈ cand) :
    o.so_pk ∈ (mergeNewData st cand).allERPData.map SumSO.so_pk := by
  rw [mergeNewData_eq]
  by_cases h : o.so_pk ∈ st.allERPData.map SumSO.so_pk
  · split
    · simpa using Or.inl h
    · exact h
  · have hfilt : o ∈ newRecords st cand := by
      rw [newRecords]
      simp only [List.mem_filter, Bool.not_eq_true']
      exact ⟨ho, by simpa using h⟩
    split
    · next hlen =>
      simp only [List.map_append, List.mem_append]
      exact Or.inr (List.mem_map_of_mem _ hfilt)
    · next hlen =>
      exact absurd (List.length_pos.mpr (List.ne_nil_of_mem hfilt)) hlen

/-- After one merge of `cand`, a second merge of `cand` finds nothing new. -/
theorem newRecords_after_merge (st : Store) (cand : List SumSO) :
    newRecords (mergeNewData st cand) cand = [] := by
  unfold newRecords
  rw [List.filter_eq_nil_iff]
  intro o ho
  simp only [Bool.not_eq_true', Bool.not_eq_false]
  simpa using mem_ids_mergeNewData st cand o ho

/-- C1: merging the same candidate sequence a second time is a no-op — the
store is unchanged (hence the record count, the identity set and the durable
write counter are those of the single merge), and the second merge's added
count (`filteredNew.length`) is zero. -/
theorem mergeNewData_idempotent (st : Store) (cand : List SumSO) :
    mergeNewData (mergeNewData st cand) cand = mergeNewData st cand ∧
    mergeAddedCount (mergeNewData st cand) cand = 0 := by
  constructor
  · rw [mergeNewData_eq (mergeNewData st cand) cand, newRecords_after_merge]
    simp
  · unfold mergeAddedCount
    rw [newRecords_after_merge]
    rfl

/-! ## C3 — pagination -/

/-- Shifting the offset sequence by one page of 500. -/
theorem range_offsets (n off : Nat) :
    (List.range (n + 1)).map (fun i => off + i * 500) =
      off :: (List.range n).map (fun i => off + 500 + i * 500) := by
  rw [List.range_succ_eq_map]
  simp only [List.map_cons, List.map_map]
  refine congrArg₂ _ (by simp) (List.map_congr_left ?_)
  intro i _
  simp only [Function.comp_apply, Nat.succ_mul, Nat.succ_eq_add_one]
  omega

/-- `fetchLoop` on a page sequence whose front pages are full (length
exactly the limit 500) and whose final page is short: it concatenates all
pages in order and requests exactly the offsets
`off, off+500, …, off+500·(front.length)`. -/
theorem fetchLoop_spec (front : List (List α)) (last : List α)
    (hfront : ∀ p ∈ front, p.length = 500) (hlast : last.length < 500) :
    ∀ off : Nat,
      fetchLoop 500 (front ++ [last]) off =
        ((front ++ [last]).flatten,
         (List.range (front.length + 1)).map (fun i => off + i * 500)) := by
  induction front with
  | nil =>
    intro off
    rw [range_offsets]
    simp [fetchLoop, hlast]
  | cons p ps ih =>
    intro off
    have hp : p.length = 500 := hfront p (by simp)
    have ihp := ih (fun q hq => hfront q (by simp [hq])) (off + 500)
    rw [List.length_cons, range_offsets]
    simp only [List.cons_append, fetchLoop, hp, lt_irrefl, if_false,
      List.flatten_cons, List.append_eq, ihp]

/-- C3: `fetchAllSalesOrders` pages with fixed size 500 at offsets
`0, 500, 1000, …`, stops exactly at the first short page, and concatenates
the pages in order; the number of page requests is `front.length + 1`. -/
theorem fetchAllSalesOrders_pagination (front : List (List α)) (last : List α)
    (hfront : ∀ p ∈ front, p.length = 500) (hlast : last.length < 500) :
    (fetchAllSalesOrders (front ++ [last])).1 = (front ++ [last]).flatten ∧
    (fetchAllSalesOrders (front ++ [last])).2 =
      (List.range (front.length + 1)).map (fun i => i * 500) := by
  unfold fetchAllSalesOrders
  rw [fetchLoop_spec front last hfront hlast 0]
  exact ⟨rfl, by simp⟩

/-- C3 witness: for the spec's upstream stub with page sizes
`[500, 500, 500, 137]` the fetch returns exactly 1637 records and performs
exactly the 4 page requests at offsets 0, 500, 1000, 1500. -/
theorem fetchAllSalesOrders_pagination_witness :
    (fetchAllSalesOrders
        [List.replicate 500 (0 : Nat), List.replicate 500 1,
         List.replicate 500 2, List.replicate 137 3]).1.length = 1637 ∧
    (fetchAllSalesOrders
        [List.replicate 500 (0 : Nat), List.replicate 500 1,
         List.replicate 500 2, List.replicate 137 3]).2 =
      [0, 500, 1000, 1500] := by
  have h :=
    fetchAllSalesOrders_pagination
      [List.replicate 500 (0 : Nat), List.replicate 500 1, List.replicate 500 2]
      (List.replicate 137 3)
      (by intro p hp; fin_cases hp <;> exact List.length_replicate 500 _)
      (by rw [List.length_replicate]; norm_num)
  refine ⟨?_, ?_⟩
  · rw [show
      ([List.replicate 500 (0 : Nat), List.replicate 500 1,
        List.replicate 500 2] ++ [List.replicate 137 3]) =
      [List.replicate 500 (0 : Nat), List.replicate 500 1,
       List.replicate 500 2, List.replicate 137 3] from rfl] at h
    rw [h.1, List.length_flatten]
    simp only [List.map_cons, List.map_nil, List.length_replicate,
      List.sum_cons, List.sum_nil]
    norm_num
  · rw [show
      ([List.replicate 500 (0 : Nat), List.replicate 500 1,
        List.replicate 500 2] ++ [List.replicate 137 3]) =
      [List.replicate 500 (0 : Nat), List.replicate 500 1,
       List.replicate 500 2, List.replicate 137 3] from rfl] at h
    rw [h.2]
    rfl

/-! ## C10 — unrecognized gross-profit operator -/

/-- C10: a `gpThreshold` whose operator is none of `>`, `<`, `>=`, `<=`,
`=` accepts every record — `filterOrders` returns exactly what it returns
with no `gpThreshold` at all. -/
theorem filterOrders_unknown_operator (orders : List SumSO)
    (parsed : ParsedQuery) (t : GpThreshold)
    (hgp : parsed.gpThreshold = some t)
    (hop : t.operator ∉ ([">", "<", ">=", "<=", "="] : List String)) :
    filterOrders orders parsed =
      filterOrders orders { parsed with gpThreshold := none } := by
  have h1 : t.operator ≠ ">" := fun h => hop (by simp [h])
  have h2 : t.operator ≠ "<" := fun h => hop (by simp [h])
  have h3 : t.operator ≠ ">=" := fun h => hop (by simp [h])
  have h4 : t.operator ≠ "<=" := fun h => hop (by simp [h])
  have h5 : t.operator ≠ "=" := fun h => hop (by simp [h])
  have hpass : ∀ l : List SumSO, l.filter (gpPass t.operator t.value) = l := by
    intro l
    rw [List.filter_eq_self]
    intro o _
    simp [gpPass, h1, h2, h3, h4, h5]
  simp [filterOrders, hgp, hpass]

/-- C10 witness: the operator `!=` is silently ignored on the concrete
example records. -/
theorem filterOrders_unknown_operator_witness :
    filterOrders recsFilter descBadOp =
      filterOrders recsFilter { descBadOp with gpThreshold := none } :=
  filterOrders_unknown_operator recsFilter descBadOp
    { operator := "!=", value := 50 } rfl (by decide)

/-! ## C7 — no `max` / `min` aggregation exists -/

/-- C7 counterexample: on a non-empty match set the `max` intent does not
return the record with the highest amount — it returns the fixed fallback
string, identically for stores whose maximal records differ. -/
theorem formatResponse_max_counterexample :
    formatResponse (fun _ => "") [mkRec "1" "Acme" 100 50 "2024-01-01"]
        descMax "q" = "Could not understand the question." ∧
    formatResponse (fun _ => "") [mkRec "1" "Acme" 100 50 "2024-01-01"]
        descMax "q" =
      formatResponse (fun _ => "") [mkRec "2" "Beta" 999 70 "2024-01-02"]
        descMax "q" := by
  constructor <;> rfl

/-- C7 amended: `formatResponse` has branches only for the intents
`general`, `count`, `list`, `sample`, `topCustomers`, `topDivision` and
`topSales`; any other intent — in particular `max` and `min` — falls
through to the fixed fallback string, for every non-empty match set. -/
theorem formatResponse_unhandled_intent (llm : String → String)
    (orders : List SumSO) (parsed : ParsedQuery) (question : String)
    (hne : orders ≠ [])
    (hint : parsed.intent ∉
      (["general", "count", "list", "sample", "topCustomers", "topDivision",
        "topSales"] : List String)) :
    formatResponse llm orders parsed question =
      "Could not understand the question." := by
  have h1 : parsed.intent ≠ "general" := fun h => hint (by simp [h])
  have h2 : parsed.intent ≠ "count" := fun h => hint (by simp [h])
  have h3 : parsed.intent ≠ "list" := fun h => hint (by simp [h])
  have h4 : parsed.intent ≠ "sample" := fun h => hint (by simp [h])
  have h5 : parsed.intent ≠ "topCustomers" := fun h => hint (by simp [h])
  have h6 : parsed.intent ≠ "topDivision" := fun h => hint (by simp [h])
  have h7 : parsed.intent ≠ "topSales" := fun h => hint (by simp [h])
  have hempty : orders.isEmpty = false := by
    simpa [List.isEmpty_iff] using hne
  simp [formatResponse, h1, h2, h3, h4, h5, h6, h7, hempty]

/-- C7 witness: the amended fall-through fact at the concrete `max` and
`min` intents. -/
theorem formatResponse_unhandled_intent_witness :
    formatResponse (fun _ => "") [mkRec "1" "Acme" 100 50 "2024-01-01"]
        descMax "q" = "Could not understand the question." ∧
    formatResponse (fun _ => "") [mkRec "1" "Acme" 100 50 "2024-01-01"]
        { descMax with intent := "min" } "q" =
      "Could not understand the question." :=
  ⟨formatResponse_unhandled_intent _ _ _ _ (by decide) (by decide),
   formatResponse_unhandled_intent _ _ _ _ (by decide) (by decide)⟩

/-! ## C8 — snapshot load -/

/-- C8 counterexample: a durable file whose content is not JSON makes the
top-level load throw (`JSON.parse` has no surrounding try/catch), rather
than yield an empty store. -/
theorem loadERPData_corrupt_counterexample :
    loadERPData (.content "corrupt") = .error "SyntaxError" := rfl

/-- C8 amended: a missing durable file yields the empty store, but an
unreadable file or one whose content fails `JSON.parse` propagates the
exception out of the module top level (fatal at process start); readable
valid JSON is loaded as parsed. -/
theorem loadERPData_behavior (s : String) :
    loadERPData .missing = .ok (.arr []) ∧
    loadERPData .unreadable = .error "EACCES" ∧
    (jsonParse s = none → loadERPData (.content s) = .error "SyntaxError") ∧
    (∀ v, jsonParse s = some v → loadERPData (.content s) = .ok v) := by
  refine ⟨rfl, rfl, ?_, ?_⟩
  · intro h
    simp [loadERPData, h]
  · intro v h
    simp [loadERPData, h]

/-- C8 witness: concrete file states — missing recovers to the empty store,
the corrupt content `"corrupt"` is fatal. -/
theorem loadERPData_behavior_witness :
    loadERPData .missing = .ok (.arr []) ∧
    loadERPData (.content "corrupt") = .error "SyntaxError" :=
  ⟨(loadERPData_behavior "corrupt").1,
   (loadERPData_behavior "corrupt").2.2.1 rfl⟩

/-! ## C9 — the refresh timer is not single-flight -/

/-- C9 counterexample: with a refresh cycle lasting 61 ticks, two
`preloadERPData` runs are executing at tick 60 — the interval invocation is
not skipped while the previous run is still in flight. -/
theorem activeRuns_counterexample : activeRuns 61 60 = 2 := by decide

/-- C9 amended: the scheduler has no overlap protection — whenever one
`preloadERPData` run outlasts the 60-tick interval, at least two runs are
concurrently active at the next interval tick. -/
theorem activeRuns_overlap (d : Nat) (hd : 60 < d) : 2 ≤ activeRuns d 60 := by
  have hsub : [0, 60].Sublist (List.range 61) := by decide
  have hfil :
      ([0, 60].filter (fun s => refreshStarts s && 60 < s + d)).Sublist
        ((List.range 61).filter (fun s => refreshStarts s && 60 < s + d)) :=
    hsub.filter _
  have heq : [0, 60].filter (fun s => refreshStarts s && 60 < s + d)
      = [0, 60] := by
    simp only [refreshStarts]
    simp
    omega
  rw [heq] at hfil
  have := hfil.length_le
  simpa [activeRuns] using this

/-- C9 witness: the amended overlap fact at the concrete duration 61. -/
theorem activeRuns_overlap_witness : 2 ≤ activeRuns 61 60 :=
  activeRuns_overlap 61 (by norm_num)

/-! ## C2 — identity uniqueness -/

/-- One merge of a candidate batch with pairwise-distinct ids preserves
pairwise-distinct ids in the store. -/
theorem mergeNewData_nodup (st : Store) (cand : List SumSO)
    (h0 : (st.allERPData.map SumSO.so_pk).Nodup)
    (hc : (cand.map SumSO.so_pk).Nodup) :
    ((mergeNewData st cand).allERPData.map SumSO.so_pk).Nodup := by
  rw [mergeNewData_eq]
  split
  · rw [List.map_append]
    refine List.Nodup.append h0 ?_ ?_
    · exact (((List.filter_sublist cand).map SumSO.so_pk).nodup) hc
    · intro a ha hb
      obtain ⟨o, ho, rfl⟩ := List.mem_map.mp hb
      have := (List.mem_filter.mp ho).2
      simp only [Bool.not_eq_true'] at this
      exact absurd ha (by simpa using this)
  · exact h0

/-- A merge never rewrites or removes existing records: the old store is a
prefix of the new one (new records are only appended). -/
theorem mergeNewData_append_only (st : Store) (cand : List SumSO) :
    st.allERPData <+: (mergeNewData st cand).allERPData := by
  rw [mergeNewData_eq]
  split
  · exact List.prefix_append _ _
  · exact List.prefix_refl _

/-- C2 counterexample: a single candidate batch carrying the same new id
twice is appended twice — the store ends with duplicate ids, refuting the
unconditional uniqueness invariant. -/
theorem merge_duplicate_id_counterexample :
    ¬ ((mergeNewData { allERPData := [], writes := 0 }
          [mkRec "x" "Acme" 1 1 "2024-01-01",
           mkRec "x" "Beta" 2 2 "2024-01-02"]).allERPData.map
        SumSO.so_pk).Nodup := by decide

/-- C2 amended: starting from a store with pairwise-distinct ids, any
sequence of merges whose candidate batches each carry pairwise-distinct ids
preserves pairwise-distinct stored ids; and unconditionally, existing
records are never overwritten or removed — every merge only appends. -/
theorem merge_identity_uniqueness (st : Store) (batches : List (List SumSO))
    (h0 : (st.allERPData.map SumSO.so_pk).Nodup)
    (hb : ∀ b ∈ batches, (b.map SumSO.so_pk).Nodup) :
    ((batches.foldl mergeNewData st).allERPData.map SumSO.so_pk).Nodup ∧
    st.allERPData <+: (batches.foldl mergeNewData st).allERPData := by
  induction batches generalizing st with
  | nil => exact ⟨h0, List.prefix_refl _⟩
  | cons b bs ih =>
    simp only [List.foldl_cons]
    have h1 := mergeNewData_nodup st b h0 (hb b (by simp))
    obtain ⟨hn, hp⟩ :=
      ih (mergeNewData st b) h1 (fun b' hb' => hb b' (by simp [hb']))
    exact ⟨hn, (mergeNewData_append_only st b).trans hp⟩

/-- C2 witness: two concrete batches with distinct ids merged into the
empty store keep ids pairwise distinct, appending only. -/
theorem merge_identity_uniqueness_witness :
    ((([recsFilter, recsTop].foldl mergeNewData
          { allERPData := [], writes := 0 }).allERPData.map
        SumSO.so_pk).Nodup) ∧
    ([] : List SumSO) <+:
      ([recsFilter, recsTop].foldl mergeNewData
        { allERPData := [], writes := 0 }).allERPData :=
  merge_identity_uniqueness { allERPData := [], writes := 0 }
    [recsFilter, recsTop] (by decide) (by decide)

/-! ## C4 — numeric coercion policy -/

/-- `parseFloat("0")` is 0 (the fallback path `(x || "0")`). -/
theorem parseFloatJS_zero : parseFloatJS "0" = some 0 := by
  rw [show parseFloatJS "0" = some (digitsVal ['0'] + fracVal []) from rfl]
  rw [show digitsVal ['0'] = ((0 : ℕ) : ℚ) from rfl,
    show fracVal [] = ((0 : ℕ) : ℚ) / (10 : ℚ) ^ 0 from rfl]
  norm_num

/-- C4 counterexample: a non-numeric string does **not** coerce to 0 —
`Number("abc")` and `parseFloat("abc")` are `NaN` — and only the first
thousands separator is stripped, so `"1,000,000%"` parses as 1000, not
1000000. -/
theorem summarize_nonNumeric_counterexample :
    (summarizeOne { rawBase with gpRate := .str "abc" }).gpRate ≠ some 0 ∧
    (summarizeOne { rawBase with
        TotalAmount_TransH := .str "abc" }).amount ≠ some 0 ∧
    (summarizeOne { rawBase with
        gpRate := .str "1,000,000%" }).gpRate ≠ some 1000000 := by
  refine ⟨by decide, by decide, ?_⟩
  rw [show (summarizeOne { rawBase with gpRate := .str "1,000,000%" }).gpRate =
      some (digitsVal ['1', '0', '0', '0'] + fracVal []) from rfl]
  rw [show digitsVal ['1', '0', '0', '0'] = ((1000 : ℕ) : ℚ) from rfl,
    show fracVal [] = ((0 : ℕ) : ℚ) / (10 : ℚ) ^ 0 from rfl]
  norm_num

/-- C4 amended: a numeric field that is missing, `null` or the empty string
is coerced to 0; a non-numeric string yields `NaN` (propagated, not an
error) — for `amount` via `Number()`, for `grossProfitRate` via
`parseFloat` after stripping only the **first** `%` and the **first** `,`,
so a second thousands separator truncates the longest-prefix parse. -/
theorem summarize_numeric_coercion (so : RawSO) :
    ((so.TotalAmount_TransH = .undefined ∨ so.TotalAmount_TransH = .null ∨
        so.TotalAmount_TransH = .str "") →
      (summarizeOne so).amount = some 0) ∧
    ((so.gpRate = .undefined ∨ so.gpRate = .null ∨ so.gpRate = .str "") →
      (summarizeOne so).gpRate = some 0) ∧
    (so.TotalAmount_TransH = .str "abc" → (summarizeOne so).amount = none) ∧
    (so.gpRate = .str "abc" → (summarizeOne so).gpRate = none) ∧
    (so.gpRate = .str "1,000,000%" → (summarizeOne so).gpRate = some 1000) := by
  refine ⟨?_, ?_, ?_, ?_, ?_⟩
  · intro h
    simp only [summarizeOne]
    rcases h with h | h | h <;> rw [h] <;> decide
  · intro h
    simp only [summarizeOne]
    rcases h with h | h | h <;> rw [h] <;> exact parseFloatJS_zero
  · intro h
    simp only [summarizeOne]
    rw [h]
    decide
  · intro h
    simp only [summarizeOne]
    rw [h]
    decide
  · intro h
    simp only [summarizeOne]
    rw [h]
    rw [show parseFloatJS
        (jsRemoveFirst (jsRemoveFirst (jsOr (.str "1,000,000%") (.str "0")).toStr '%') ',') =
      some (digitsVal ['1', '0', '0', '0'] + fracVal []) from rfl]
    rw [show digitsVal ['1', '0', '0', '0'] = ((1000 : ℕ) : ℚ) from rfl,
      show fracVal [] = ((0 : ℕ) : ℚ) / (10 : ℚ) ^ 0 from rfl]
    norm_num

/-- C4 witness: the amended coercions at concrete records. -/
theorem summarize_numeric_coercion_witness :
    (summarizeOne { rawBase with TotalAmount_TransH := .null }).amount =
      some 0 ∧
    (summarizeOne { rawBase with gpRate := .str "abc" }).gpRate = none ∧
    (summarizeOne { rawBase with gpRate := .str "1,000,000%" }).gpRate =
      some 1000 :=
  ⟨(summarize_numeric_coercion _).1 (Or.inr (Or.inl rfl)),
   (summarize_numeric_coercion _).2.2.2.1 rfl,
   (summarize_numeric_coercion _).2.2.2.2 rfl⟩

/-! ## C5 — filter order and composition -/

/-- Reassociating the four filter predicates. -/
theorem and_reorder (a b c d : Bool) :
    (d && c && b && a) = (a && b && c && d) := by
  cases a <;> cases b <;> cases c <;> cases d <;> rfl

/-- The skipped customer filter accepts everything. -/
theorem custTest_none : custTest none = fun _ => true := by
  funext o; rfl

/-- The active customer filter, as a function. -/
theorem custTest_some (c : String) :
    custTest (some c) =
      fun o => if c = "" then true else custPass (jsToLower c) o := by
  funext o; rfl

/-- The skipped gross-profit filter accepts everything. -/
theorem gpTest_none : gpTest none = fun _ => true := by
  funext o; rfl

/-- The active gross-profit filter, as a function. -/
theorem gpTest_some (t : GpThreshold) :
    gpTest (some t) = fun o => gpPass t.operator t.value o := by
  funext o; rfl

/-- The skipped date filter accepts everything. -/
theorem dateTest_none : dateTest none = fun _ => true := by
  funext o; rfl

/-- The active date filter, as a function. -/
theorem dateTest_some (d : String) :
    dateTest (some d) =
      fun o => if d = "" then true else o.raw.DateCreated_TransH == d := by
  funext o; rfl

/-- The skipped year filter accepts everything. -/
theorem yearTest_none : yearTest none = fun _ => true := by
  funext o; rfl

/-- The active year filter, as a function. -/
theorem yearTest_some (y : String) :
    yearTest (some y) =
      fun o =>
        if y = "" then true
        else y.data.isPrefixOf o.raw.DateCreated_TransH.data := by
  funext o; rfl

/-- Filtering on an `if` whose condition ignores the element. -/
theorem filter_if_const {α : Type} (c : Prop) [Decidable c] (p q : α → Bool)
    (l : List α) :
    (l.filter (fun o => if c then p o else q o)) =
      if c then l.filter p else l.filter q := by
  by_cases h : c <;> simp [h]

/-- `filterOrders` is the fixed sequence of the four optional filters, each
expressed as a total predicate. -/
theorem filterOrders_eq_filters (orders : List SumSO) (parsed : ParsedQuery) :
    filterOrders orders parsed =
      (((orders.filter (custTest parsed.customer)).filter
          (gpTest parsed.gpThreshold)).filter
        (dateTest parsed.date)).filter (yearTest parsed.year) := by
  rcases parsed with ⟨intent, date, year, gp, customer, status, topN, fields⟩
  rcases customer with _ | c <;> rcases gp with _ | t <;>
    rcases date with _ | d <;> rcases year with _ | y <;>
    simp only [filterOrders, custTest_none, custTest_some, gpTest_none,
      gpTest_some, dateTest_none, dateTest_some, yearTest_none, yearTest_some,
      filter_if_const, List.filter_true]

/-- C5: the four optional filters compose independently — `filterOrders`
equals one pass filtering on the conjunction of the customer-keyword,
gross-profit, exact-date and year-prefix predicates — and on the spec's
example records with descriptor `{customerKeyword:"acme",
gpThreshold:{operator:">", value:50}}` the result set is exactly id 1. -/
theorem filterOrders_composition :
    (∀ (orders : List SumSO) (parsed : ParsedQuery),
      filterOrders orders parsed = orders.filter (matchesQuery parsed)) ∧
    (filterOrders recsFilter descFilter).map SumSO.so_pk = ["1"] := by
  constructor
  · intro orders parsed
    rw [filterOrders_eq_filters, List.filter_filter, List.filter_filter,
      List.filter_filter]
    exact List.filter_congr (fun o _ => and_reorder _ _ _ _)
  · decide

/-! ## C6 — grouping, summing, stable descending sort, top N -/

/-- A successful lookup is a member. -/
theorem mem_of_lookup_eq_some {m : List (String × JSNum)} {k : String}
    {v : JSNum} (h : List.lookup k m = some v) : (k, v) ∈ m := by
  induction m with
  | nil => simp [List.lookup] at h
  | cons p rest ih =>
    obtain ⟨k', v'⟩ := p
    by_cases hk : k = k'
    · subst hk
      rw [List.lookup_cons] at h
      simp only [beq_self_eq_true] at h
      cases h
      exact List.mem_cons_self _ _
    · rw [List.lookup_cons] at h
      simp only [beq_eq_false_iff_ne.mpr hk] at h
      exact List.mem_cons_of_mem _ (ih h)

/-- A failed lookup means the key is absent. -/
theorem lookup_eq_none_iff_not_mem {m : List (String × JSNum)} {k : String} :
    List.lookup k m = none ↔ k ∉ m.map Prod.fst := by
  induction m with
  | nil => simp [List.lookup]
  | cons p rest ih =>
    obtain ⟨k', v'⟩ := p
    rw [List.lookup_cons]
    by_cases hk : k = k'
    · simp [hk]
    · simp [beq_eq_false_iff_ne.mpr hk, hk, ih]

/-- `updateAdd` keeps the key order, appending a new key at the end. -/
theorem updateAdd_map_fst (m : List (String × JSNum)) (k : String)
    (amt : JSNum) :
    (updateAdd m k amt).map Prod.fst =
      if k ∈ m.map Prod.fst then m.map Prod.fst
      else m.map Prod.fst ++ [k] := by
  induction m with
  | nil => simp [updateAdd]
  | cons p rest ih =>
    obtain ⟨k', v'⟩ := p
    by_cases hk : k' = k
    · subst hk
      simp [updateAdd]
    · simp only [updateAdd, if_neg hk, List.map_cons, ih]
      have : (k ∈ k' :: rest.map Prod.fst) ↔ k ∈ rest.map Prod.fst := by
        simp [List.mem_cons, Ne.symm hk]
      rw [if_congr this rfl rfl]
      split
      · rfl
      · simp

/-- Membership in `updateAdd m k₀ amt`, for nodup keys: either an untouched
entry of `m` with a different key, or the updated `k₀`-entry. -/
theorem of_mem_updateAdd {m : List (String × JSNum)}
    (hn : (m.map Prod.fst).Nodup) {k₀ : String} {amt : JSNum} {k : String}
    {v : JSNum} (h : (k, v) ∈ updateAdd m k₀ amt) :
    (k ≠ k₀ ∧ (k, v) ∈ m) ∨
    (k = k₀ ∧ v = jsAdd (accBase (List.lookup k₀ m)) amt) := by
  induction m with
  | nil =>
    simp only [updateAdd, List.mem_singleton, Prod.mk.injEq] at h
    exact Or.inr ⟨h.1, by rw [h.2]; rfl⟩
  | cons p rest ih =>
    obtain ⟨k', v'⟩ := p
    rw [List.map_cons, List.nodup_cons] at hn
    by_cases hk : k' = k₀
    · subst hk
      simp only [updateAdd, if_pos rfl] at h
      rcases List.mem_cons.mp h with heq | hrest
      · rw [Prod.mk.injEq] at heq
        refine Or.inr ⟨heq.1, ?_⟩
        rw [heq.2, List.lookup_cons]
        simp
      · refine Or.inl ⟨?_, List.mem_cons_of_mem _ hrest⟩
        intro hkk
        subst hkk
        exact hn.1 (List.mem_map.mpr ⟨(_, v), hrest, rfl⟩)
    · simp only [updateAdd, if_neg hk] at h
      rcases List.mem_cons.mp h with heq | hrest
      · rw [Prod.mk.injEq] at heq
        refine Or.inl ⟨?_, by rw [List.mem_cons, Prod.mk.injEq]; exact Or.inl heq⟩
        rw [heq.1]
        exact hk
      · rcases ih hn.2 hrest with ⟨hne, hm⟩ | ⟨hkeq, hv⟩
        · exact Or.inl ⟨hne, List.mem_cons_of_mem _ hm⟩
        · refine Or.inr ⟨hkeq, ?_⟩
          rw [hv, List.lookup_cons]
          have : (k₀ == k') = false := beq_eq_false_iff_ne.mpr (Ne.symm hk)
          simp [this]

/-- The grouping loop computes exactly the per-key amount sums, with keys
pairwise distinct in first-encounter order. -/
theorem accumEntries_spec (key : SumSO → String) :
    ∀ orders : List SumSO, (∀ o ∈ orders, o.amount ≠ none) →
      ((accumEntries key orders).map Prod.fst).Nodup ∧
      (∀ k v, (k, v) ∈ accumEntries key orders →
        v = some (groupSum key orders k)) ∧
      (∀ k, k ∈ (accumEntries key orders).map Prod.fst ↔
        ∃ o ∈ orders, key o = k) := by
  intro orders
  induction orders using List.reverseRecOn with
  | nil =>
    intro _
    refine ⟨by simp [accumEntries], by simp [accumEntries],
      by simp [accumEntries]⟩
  | append_singleton os o ih =>
    intro h
    have hos : ∀ o' ∈ os, o'.amount ≠ none := fun o' ho' => h o' (by simp [ho'])
    obtain ⟨ha, hb, hc⟩ := ih hos
    obtain ⟨q, hq⟩ : ∃ q, o.amount = some q := by
      cases hco : o.amount with
      | none => exact absurd hco (h o (by simp))
      | some q => exact ⟨q, rfl⟩
    have hacc : accumEntries key (os ++ [o]) =
        updateAdd (accumEntries key os) (key o) o.amount := by
      unfold accumEntries
      rw [List.foldl_append]
      rfl
    refine ⟨?_, ?_, ?_⟩
    · rw [hacc, updateAdd_map_fst]
      split
      · exact ha
      · next hnot =>
        refine List.Nodup.append ha (List.nodup_singleton _) ?_
        intro a haa hab
        rw [List.mem_singleton] at hab
        subst hab
        exact hnot haa
    · intro k v hkv
      rw [hacc] at hkv
      rcases of_mem_updateAdd ha hkv with ⟨hne, hm⟩ | ⟨hkeq, hv⟩
      · have hgs : groupSum key (os ++ [o]) k = groupSum key os k := by
          unfold groupSum
          rw [List.filter_append]
          have hfo : (key o == k) = false := beq_eq_false_iff_ne.mpr (Ne.symm hne)
          simp [List.filter_cons, hfo]
        rw [hgs]
        exact hb k v hm
      · subst hkeq
        cases hlk : List.lookup (key o) (accumEntries key os) with
        | some v₀ =>
          have hv₀ := hb _ _ (mem_of_lookup_eq_some hlk)
          rw [hlk, hv₀] at hv
          have haccb : accBase (some (some (groupSum key os (key o)))) =
              some (groupSum key os (key o)) := by
            simp only [accBase]
            split_ifs with hs
            · rw [hs]
            · rfl
          rw [haccb, hq] at hv
          have hgs : groupSum key (os ++ [o]) (key o) =
              groupSum key os (key o) + q := by
            unfold groupSum
            rw [List.filter_append]
            simp [List.filter_cons, hq]
          rw [hv, hgs]
          rfl
        | none =>
          have hffront : os.filter (fun o' => key o' == key o) = [] := by
            rw [List.filter_eq_nil_iff]
            intro o' ho' hbe
            exact (lookup_eq_none_iff_not_mem.mp hlk)
              ((hc (key o)).mpr ⟨o', ho', by simpa using hbe⟩)
          have hgs : groupSum key (os ++ [o]) (key o) = q := by
            unfold groupSum
            rw [List.filter_append, hffront]
            simp [List.filter_cons, hq]
          rw [hlk, hq] at hv
          rw [hv, hgs]
          show jsAdd (accBase none) (some q) = some q
          simp [accBase, jsAdd]
    · intro k
      rw [hacc, updateAdd_map_fst]
      split
      · next hmem =>
        rw [hc k]
        constructor
        · rintro ⟨o', ho', hko⟩
          exact ⟨o', by simp [ho'], hko⟩
        · rintro ⟨o', ho', hko⟩
          rcases List.mem_append.mp ho' with h' | h'
          · exact ⟨o', h', hko⟩
          · rw [List.mem_singleton] at h'
            subst h'
            exact (hc k).mp (hko ▸ hmem)
      · next hnot =>
        rw [List.mem_append, List.mem_singleton]
        constructor
        · rintro (hk | hk)
          · obtain ⟨o', ho', hko⟩ := (hc k).mp hk
            exact ⟨o', by simp [ho'], hko⟩
          · subst hk
            exact ⟨o, by simp, rfl⟩
        · rintro ⟨o', ho', hko⟩
          rcases List.mem_append.mp ho' with h' | h'
          · exact Or.inl ((hc k).mpr ⟨o', h', hko⟩)
          · rw [List.mem_singleton] at h'
            subst h'
            exact Or.inr hko.symm

/-- `entryLeQ` is transitive. -/
theorem entryLeQ_trans : ∀ a b c : String × ℚ,
    entryLeQ a b = true → entryLeQ b c = true → entryLeQ a c = true := by
  intro a b c
  simp only [entryLeQ, decide_eq_true_eq]
  exact fun h1 h2 => le_trans h2 h1

/-- `entryLeQ` is total. -/
theorem entryLeQ_total : ∀ a b : String × ℚ,
    (entryLeQ a b || entryLeQ b a) = true := by
  intro a b
  simp only [entryLeQ, Bool.or_eq_true, decide_eq_true_eq]
  exact le_total b.2 a.2

/-- Entries with no `NaN` sums factor through their rational values. -/
theorem entries_eq_map_ofQ {entries : List (String × JSNum)}
    (hsome : ∀ p ∈ entries, p.2 ≠ none) :
    entries = (entries.map toQEntry).map ofQEntry := by
  rw [List.map_map]
  have hpt : ∀ p ∈ entries, (ofQEntry ∘ toQEntry) p = id p := by
    intro p hp
    obtain ⟨k, v⟩ := p
    cases v with
    | none => exact absurd rfl (hsome (k, none) hp)
    | some q => rfl
  rw [List.map_congr_left hpt, List.map_id]

/-- The JS comparator agrees with the rational one through the embedding. -/
theorem entryLe_ofQ (a b : String × ℚ) :
    entryLe (ofQEntry a) (ofQEntry b) = entryLeQ a b := by
  simp only [entryLe, entryLeQ, ofQEntry, entryCmp, jsSub]
  rw [decide_eq_decide]
  exact sub_nonpos

/-- The sort of `NaN`-free entries is the embedded rational sort. -/
theorem sortEntriesDesc_transport {entries : List (String × JSNum)}
    (hsome : ∀ p ∈ entries, p.2 ≠ none) :
    sortEntriesDesc entries =
      ((entries.map toQEntry).mergeSort entryLeQ).map ofQEntry := by
  unfold sortEntriesDesc
  conv_lhs => rw [entries_eq_map_ofQ hsome]
  rw [← List.map_mergeSort (fun a _ b _ => (entryLe_ofQ a b).symm)]

/-- C6: the top-N branches group records by key, sum `amount` per group in
first-encounter key order, sort the groups descending by summed amount with
a stable sort (ties keep encounter order), take the first `topN` (the
missing `topN` defaulting to 1). -/
theorem topGroups_spec (key : SumSO → String) (orders : List SumSO)
    (h : ∀ o ∈ orders, o.amount ≠ none) :
    ((accumEntries key orders).map Prod.fst).Nodup ∧
    (∀ k v, (k, v) ∈ accumEntries key orders →
      v = some (groupSum key orders k)) ∧
    (∀ k, k ∈ (accumEntries key orders).map Prod.fst ↔
      ∃ o ∈ orders, key o = k) ∧
    (sortEntriesDesc (accumEntries key orders)).Perm
      (accumEntries key orders) ∧
    (sortEntriesDesc (accumEntries key orders)).Pairwise
      (fun a b => (b.2).getD 0 ≤ (a.2).getD 0) ∧
    (∀ a b, [a, b].Sublist (accumEntries key orders) → a.2 = b.2 →
      [a, b].Sublist (sortEntriesDesc (accumEntries key orders))) ∧
    (∀ n, topEntries key orders n =
      (sortEntriesDesc (accumEntries key orders)).take n) ∧
    (∀ p : ParsedQuery, p.topN = none → topNVal p = 1) := by
  obtain ⟨ha, hb, hc⟩ := accumEntries_spec key orders h
  have hsome : ∀ p ∈ accumEntries key orders, p.2 ≠ none := by
    intro p hp
    obtain ⟨k, v⟩ := p
    rw [hb k v hp]
    simp
  have htr := sortEntriesDesc_transport hsome
  refine ⟨ha, hb, hc, List.mergeSort_perm _ _, ?_, ?_, fun n => rfl, ?_⟩
  · rw [htr, List.pairwise_map]
    refine List.Pairwise.imp ?_
      (List.sorted_mergeSort entryLeQ_trans entryLeQ_total
        ((accumEntries key orders).map toQEntry))
    intro a b hab
    simpa [entryLeQ, ofQEntry] using hab
  · intro a b hsub heq
    rw [entries_eq_map_ofQ hsome] at hsub
    obtain ⟨r, hr, hmap⟩ := List.sublist_map_iff.mp hsub
    cases r with
    | nil => simp at hmap
    | cons a' r' =>
      cases r' with
      | nil => simp at hmap
      | cons b' r'' =>
        cases r'' with
        | cons c rr => simp at hmap
        | nil =>
          simp only [List.map_cons, List.map_nil] at hmap
          injection hmap with h1 hmap2
          injection hmap2 with h2 _
          subst h1
          subst h2
          have hle : entryLeQ a' b' = true := by
            simp only [entryLeQ, decide_eq_true_eq]
            have hq : a'.2 = b'.2 := by simpa [ofQEntry] using heq
            rw [hq]
          have hpair : List.Pairwise (fun x y => entryLeQ x y = true)
              [a', b'] := by
            simp [List.pairwise_cons, hle]
          have hsub2 :=
            List.sublist_mergeSort entryLeQ_trans entryLeQ_total hpair hr
          rw [htr]
          simpa using hsub2.map ofQEntry
  · intro p hp
    simp [topNVal, hp]

/-- C6 witness: keys grouped without duplicates, and the spec's example —
summed amounts Acme=300, Beta=500, Gamma=200 with `topN = 2` rank Beta
before Acme; an absent `topN` defaults to 1. -/
theorem topGroups_spec_witness :
    ((accumEntries keyCust recsTop).map Prod.fst).Nodup ∧
    topEntries keyCust recsTop 2 = [("Beta", some 500), ("Acme", some 300)] ∧
    topNVal descMax = 1 := by
  obtain ⟨ha, -, -, -, -, -, -, hd⟩ :=
    topGroups_spec keyCust recsTop (by decide)
  refine ⟨ha, ?_, hd descMax rfl⟩
  simp +decide [topEntries, sortEntriesDesc, accumEntries, updateAdd, accBase,
    jsAdd, entryLe, entryCmp, jsSub, keyCust, recsTop, mkRec, rawBase,
    List.mergeSort, List.merge]
  norm_num [List.merge, entryLe, entryCmp, jsSub]

end ERP
